import Mathlib

/-!
Shallow embedding of the translink-parser pipeline (src/translink-parser.js)
and verification of the frozen claims about it.

JavaScript values that flow through the pipeline are strings, numbers and
the `undefined` value; rows (JS objects) are association lists from field
names to values, read with first-match lookup and written with
override-previous semantics, which matches JS object field access and
object-spread merging observationally.
-/

set_option autoImplicit false

namespace Translink

/-- A JavaScript value as used by the pipeline: a string, a number, or
`undefined` (the result of reading an absent field).  Numbers that occur in
the program are integers; NaN is represented by `Option` at the places where
arithmetic can produce it. -/
inductive JSVal where
  | str (s : String)
  | num (n : Int)
  | undefined
  deriving DecidableEq, Repr

/-- JavaScript strict equality on the values of the model: equal when of the
same type with the same value; `undefined === undefined` is true. -/
def jsStrictEq : JSVal → JSVal → Bool
  | .str a, .str b => a == b
  | .num a, .num b => a == b
  | .undefined, .undefined => true
  | _, _ => false

/-- Numeric coercion used by loose equality: a string of decimal digits
coerces to the corresponding number, other strings and `undefined` to NaN
(`none`). -/
def jsToNumber : JSVal → Option Int
  | .num n => some n
  | .str s => if s.length > 0 && s.data.all Char.isDigit
      then some (s.foldl (fun acc c => acc * 10 + ((c.toNat : Int) - 48)) 0)
      else none
  | .undefined => none

/-- JavaScript loose equality for the value shapes of the model:
same-type comparisons are value equality, a string and a number compare
through numeric coercion, `undefined` is loosely equal only to itself. -/
def jsLooseEq : JSVal → JSVal → Bool
  | .str a, .str b => a == b
  | .num a, .num b => a == b
  | .undefined, .undefined => true
  | .str a, .num b => jsToNumber (.str a) == some b
  | .num a, .str b => some a == jsToNumber (.str b)
  | _, _ => false

/-- A JS object (a row of a table): an association list from field names to
values.  Lookup takes the first binding; update removes the previous binding,
so lists built through `Row.set` have no duplicate keys, like JS objects. -/
abbrev Row := List (String × JSVal)

namespace Row

/-- Field access `row[f]`: the first binding of `f`, or `undefined`. -/
def get (r : Row) (f : String) : JSVal :=
  match r.find? (fun p => p.1 == f) with
  | some p => p.2
  | none => .undefined

/-- The `hasOwnProperty` test. -/
def hasOwn (r : Row) (f : String) : Bool :=
  r.any (fun p => p.1 == f)

/-- Assignment `row[f] = v` (also the effect of a later entry in an object
literal): the new binding overrides any previous one. -/
def set (r : Row) (f : String) (v : JSVal) : Row :=
  (f, v) :: r.filter (fun p => !(p.1 == f))

/-- Object spread `{...l, ...m}`: every binding of `m` overrides the
corresponding binding of `l`. -/
def merge (l m : Row) : Row :=
  m.foldl (fun acc p => acc.set p.1 p.2) l

/-- Keys of a row. -/
def keys (r : Row) : List String := r.map Prod.fst

@[simp] theorem get_nil (f : String) : get [] f = .undefined := rfl

@[simp] theorem hasOwn_nil (f : String) : hasOwn [] f = false := rfl

theorem get_cons (k : String) (v : JSVal) (r : Row) (f : String) :
    get ((k, v) :: r) f = if k == f then v else get r f := by
  simp only [get, List.find?]
  cases h : k == f <;> simp [h]

theorem hasOwn_cons (k : String) (v : JSVal) (r : Row) (f : String) :
    hasOwn ((k, v) :: r) f = (k == f || hasOwn r f) := by
  simp [hasOwn, List.any_cons]

theorem filter_cons_self (k : String) (b : JSVal) (r : Row) :
    List.filter (fun p => !(p.1 == k)) ((k, b) :: r)
      = List.filter (fun p => !(p.1 == k)) r := by
  simp [List.filter]

theorem filter_cons_ne (a k : String) (b : JSVal) (r : Row) (ha : a ≠ k) :
    List.filter (fun p => !(p.1 == k)) ((a, b) :: r)
      = (a, b) :: List.filter (fun p => !(p.1 == k)) r := by
  have hb : (a == k) = false := by simp [ha]
  simp [List.filter, hb]

theorem get_filter_ne (r : Row) (k f : String) (h : k ≠ f) :
    get (r.filter (fun p => !(p.1 == k))) f = get r f := by
  induction r with
  | nil => rfl
  | cons p r ih =>
      obtain ⟨a, b⟩ := p
      by_cases ha : a = k
      · subst ha
        rw [filter_cons_self, ih, get_cons]
        simp [h]
      · rw [filter_cons_ne a k b r ha, get_cons, get_cons, ih]

theorem get_set (r : Row) (k : String) (v : JSVal) (f : String) :
    get (r.set k v) f = if k == f then v else get r f := by
  by_cases h : k = f
  · subst h; simp [set, get_cons]
  · rw [show r.set k v = (k, v) :: r.filter (fun p => !(p.1 == k)) from rfl,
      get_cons, get_filter_ne r k f h]

theorem hasOwn_filter_ne (r : Row) (k f : String) (h : k ≠ f) :
    hasOwn (r.filter (fun p => !(p.1 == k))) f = hasOwn r f := by
  induction r with
  | nil => rfl
  | cons p r ih =>
      obtain ⟨a, b⟩ := p
      by_cases ha : a = k
      · subst ha
        rw [filter_cons_self, ih, hasOwn_cons]
        simp [h]
      · rw [filter_cons_ne a k b r ha, hasOwn_cons, hasOwn_cons, ih]

theorem hasOwn_set (r : Row) (k : String) (v : JSVal) (f : String) :
    hasOwn (r.set k v) f = (k == f || hasOwn r f) := by
  by_cases h : k = f
  · subst h; simp [set, hasOwn_cons]
  · rw [show r.set k v = (k, v) :: r.filter (fun p => !(p.1 == k)) from rfl,
      hasOwn_cons, hasOwn_filter_ne r k f h]

end Row

/-- A row whose key list has no duplicates, as holds for every JS object and
for every row built by `Row.set`. -/
def KeysNodup (m : Row) : Prop := m.keys.Nodup

theorem keys_filter (r : Row) (k : String) :
    Row.keys (r.filter (fun p => !(p.1 == k)))
      = (Row.keys r).filter (fun a => !(a == k)) := by
  induction r with
  | nil => rfl
  | cons p r ih =>
      simp only [Row.keys, List.filter, List.map] at *
      cases hb : !(p.1 == k) <;> simp [hb, ih]

theorem hasOwn_iff_mem_keys (m : Row) (f : String) :
    m.hasOwn f = true ↔ f ∈ m.keys := by
  constructor
  · intro h
    obtain ⟨p, hp, he⟩ := List.any_eq_true.mp h
    exact (beq_iff_eq.mp he) ▸ List.mem_map_of_mem Prod.fst hp
  · intro h
    obtain ⟨p, hp, he⟩ := List.mem_map.mp h
    exact List.any_eq_true.mpr ⟨p, hp, beq_iff_eq.mpr he⟩

theorem keysNodup_set (m : Row) (k : String) (v : JSVal) (h : KeysNodup m) :
    KeysNodup (m.set k v) := by
  unfold KeysNodup at *
  rw [show (m.set k v).keys = k :: Row.keys (m.filter (fun p => !(p.1 == k))) from rfl,
    keys_filter]
  refine List.nodup_cons.mpr ⟨?_, h.filter _⟩
  intro hmem
  simpa using (List.mem_filter.mp hmem).2

theorem keysNodup_nil : KeysNodup [] := List.nodup_nil

/-- Reading through an object spread: a binding of the second object wins,
otherwise the first object is read, provided the second object has no
duplicate keys (always the case for the rows the pipeline spreads). -/
theorem get_merge_of_keysNodup (m : Row) :
    ∀ (l : Row) (f : String), KeysNodup m →
      (Row.merge l m).get f = if m.hasOwn f then m.get f else l.get f := by
  induction m with
  | nil => intro l f _; simp [Row.merge]
  | cons p m ih =>
      intro l f hnd
      obtain ⟨a, b⟩ := p
      obtain ⟨hna, hnm⟩ := List.nodup_cons.mp hnd
      rw [show Row.merge l ((a, b) :: m) = Row.merge (l.set a b) m from rfl, ih _ f hnm,
        Row.hasOwn_cons, Row.get_cons]
      by_cases hf : a = f
      · subst hf
        have hm : Row.hasOwn m a = false := by
          cases hmo : Row.hasOwn m a
          · rfl
          · exact absurd ((hasOwn_iff_mem_keys m a).mp hmo) hna
        simp [hm, Row.get_set]
      · have hb : (a == f) = false := by simp [hf]
        simp only [hb, Bool.false_or, if_false]
        rw [Row.get_set]
        simp [hb]

/-- The kind of a relational join.  The source takes it as one of the strings
"inner", "left" and "right"; the inductive restricts to exactly those. -/
inductive JoinType where
  | inner
  | left
  | right
  deriving DecidableEq, Repr

/-- The key test of the join: `rightItem[onField] === leftItem[onField]`. -/
def keyMatches (onField : String) (leftItem rightItem : Row) : Bool :=
  jsStrictEq (rightItem.get onField) (leftItem.get onField)

/-- One step of the carry-field loop of the source: copy `field` from the
matched right row when the right row has it as an own property. -/
def carryStep (rightItem : Row) (acc : Row) (field : String) : Row :=
  if rightItem.hasOwn field then acc.set field (rightItem.get field) else acc

/-- The `mergedRight` object of the source: the requested carry fields that
are present on the matched right row, copied in order. -/
def carryFields (rightItem : Row) (addFieldsFromJoin : List String) : Row :=
  addFieldsFromJoin.foldl (carryStep rightItem) []

/-- The body of the map of `joinObjectsOnField` for one left row: `none`
models the `null` return that the trailing filter removes. -/
def joinRow (joinType : JoinType) (onField : String) (right : List Row)
    (addFieldsFromJoin : List String) (leftItem : Row) : Option Row :=
  match right.find? (keyMatches onField leftItem) with
  | none =>
      match joinType with
      | .inner => none
      | .left => some leftItem
      | .right => none
  | some rightItem =>
      some (Row.merge leftItem (carryFields rightItem addFieldsFromJoin))

/-- The join engine of the source (`joinObjectsOnField`): a right join
delegates to a left join with the operands swapped; otherwise each left row
is mapped through `joinRow` and the `null` results are filtered out, which
`List.filterMap` captures. -/
def joinObjectsOnField (joinType : JoinType) (onField : String)
    (left right : List Row) (addFieldsFromJoin : List String) : List Row :=
  match joinType with
  | .right => right.filterMap (joinRow .left onField left addFieldsFromJoin)
  | jt => left.filterMap (joinRow jt onField right addFieldsFromJoin)

/-- The value of one output row of a left join, never `null`. -/
def leftJoinRow (onField : String) (right : List Row)
    (addFieldsFromJoin : List String) (leftItem : Row) : Row :=
  match right.find? (keyMatches onField leftItem) with
  | none => leftItem
  | some rightItem => Row.merge leftItem (carryFields rightItem addFieldsFromJoin)

theorem joinRow_left_eq (onField : String) (right : List Row)
    (addFieldsFromJoin : List String) (leftItem : Row) :
    joinRow .left onField right addFieldsFromJoin leftItem
      = some (leftJoinRow onField right addFieldsFromJoin leftItem) := by
  unfold joinRow leftJoinRow
  cases right.find? (keyMatches onField leftItem) <;> rfl

theorem join_left_eq_map (onField : String) (left right : List Row)
    (addFieldsFromJoin : List String) :
    joinObjectsOnField .left onField left right addFieldsFromJoin
      = left.map (leftJoinRow onField right addFieldsFromJoin) := by
  show left.filterMap _ = _
  induction left with
  | nil => rfl
  | cons x xs ih =>
      rw [List.filterMap_cons, joinRow_left_eq, List.map_cons, ← ih]

theorem carry_foldl_get (rightItem : Row) (fields : List String) :
    ∀ (acc : Row) (f : String),
      (fields.foldl (carryStep rightItem) acc).get f
        = if fields.contains f && rightItem.hasOwn f
          then rightItem.get f else acc.get f := by
  induction fields with
  | nil => intro acc f; simp
  | cons g rest ih =>
      intro acc f
      rw [List.foldl_cons, ih]
      by_cases hfg : g = f
      · subst hfg
        cases hr : rightItem.hasOwn g
        · simp [carryStep, hr]
        · cases hc : rest.contains g <;>
            simp [carryStep, hr, hc, Row.get_set, List.contains_cons]
      · have hb : (g == f) = false := by simp [hfg]
        have hfg2 : f ≠ g := fun he => hfg he.symm
        cases hr : rightItem.hasOwn g <;>
          simp [carryStep, hr, Row.get_set, hb, hfg2, List.contains_cons]

theorem carry_foldl_hasOwn (rightItem : Row) (fields : List String) :
    ∀ (acc : Row) (f : String),
      (fields.foldl (carryStep rightItem) acc).hasOwn f
        = (acc.hasOwn f || (fields.contains f && rightItem.hasOwn f)) := by
  induction fields with
  | nil => intro acc f; simp
  | cons g rest ih =>
      intro acc f
      rw [List.foldl_cons, ih]
      by_cases hfg : g = f
      · subst hfg
        cases hr : rightItem.hasOwn g <;>
          cases hc : rest.contains g <;>
            simp [carryStep, hr, hc, Row.hasOwn_set, List.contains_cons]
      · have hb : (g == f) = false := by simp [hfg]
        have hfg2 : f ≠ g := fun he => hfg he.symm
        cases hr : rightItem.hasOwn g <;>
          simp [carryStep, hr, Row.hasOwn_set, hb, hfg2, List.contains_cons]

theorem carry_foldl_keysNodup (rightItem : Row) (fields : List String) :
    ∀ (acc : Row), KeysNodup acc →
      KeysNodup (fields.foldl (carryStep rightItem) acc) := by
  induction fields with
  | nil => intro acc h; simpa using h
  | cons g rest ih =>
      intro acc h
      rw [List.foldl_cons]
      refine ih _ ?_
      unfold carryStep
      cases hr : rightItem.hasOwn g
      · simpa using h
      · simpa using keysNodup_set acc g (rightItem.get g) h

theorem carryFields_keysNodup (rightItem : Row) (fields : List String) :
    KeysNodup (carryFields rightItem fields) :=
  carry_foldl_keysNodup rightItem fields [] keysNodup_nil

theorem carryFields_get (rightItem : Row) (fields : List String) (f : String) :
    (carryFields rightItem fields).get f
      = if fields.contains f && rightItem.hasOwn f
        then rightItem.get f else .undefined :=
  carry_foldl_get rightItem fields [] f

theorem carryFields_hasOwn (rightItem : Row) (fields : List String) (f : String) :
    (carryFields rightItem fields).hasOwn f
      = (fields.contains f && rightItem.hasOwn f) := by
  simpa using carry_foldl_hasOwn rightItem fields [] f

/-! ### Calendar dates

`Date.parse` of a well-formed "YYYY-MM-DD" string yields the UTC timestamp
of that midnight, and of a malformed one NaN.  Timestamps are compared only
with `<` and `>`, so the model uses the order-isomorphic count of days since
1970-01-01 (the civil-from-date algorithm), with `none` for NaN; NaN makes
every comparison false, as in JS. -/

/-- Leap years of the proleptic Gregorian calendar. -/
def isLeapYear (y : Int) : Bool :=
  (y % 4 == 0 && y % 100 != 0) || y % 400 == 0

/-- Number of days of month m of year y. -/
def daysInMonth (y m : Int) : Int :=
  if m == 2 then (if isLeapYear y then 29 else 28)
  else if m == 4 || m == 6 || m == 9 || m == 11 then 30
  else 31

/-- Days since 1970-01-01 of the civil date (y, m, d). -/
def daysFromCivil (y m d : Int) : Int :=
  let yy := if m ≤ 2 then y - 1 else y
  let era := (if 0 ≤ yy then yy else yy - 399) / 400
  let yoe := yy - era * 400
  let doy := (153 * (if m > 2 then m - 3 else m + 9) + 2) / 5 + d - 1
  let doe := yoe * 365 + yoe / 4 - yoe / 100 + doy
  era * 146097 + doe - 719468

/-- Digit value of a character, NaN (`none`) for a non-digit. -/
def digitVal (c : Char) : Option Nat :=
  if c.isDigit then some (c.toNat - 48) else none

/-- `Date.parse` of a "YYYY-MM-DD" string, as the day count it is
order-isomorphic to; `none` is NaN (malformed string or invalid
calendar components). -/
def parseISODate (s : String) : Option Int :=
  match s.data with
  | [c1, c2, c3, c4, s1, c5, c6, s2, c7, c8] =>
      if s1 == '-' && s2 == '-' && [c1, c2, c3, c4, c5, c6, c7, c8].all Char.isDigit
      then
        let y : Int := ((c1.toNat - 48) * 1000 + (c2.toNat - 48) * 100
          + (c3.toNat - 48) * 10 + (c4.toNat - 48) : Nat)
        let m : Int := ((c5.toNat - 48) * 10 + (c6.toNat - 48) : Nat)
        let d : Int := ((c7.toNat - 48) * 10 + (c8.toNat - 48) : Nat)
        if 1 ≤ m ∧ m ≤ 12 ∧ 1 ≤ d ∧ d ≤ daysInMonth y m
        then some (daysFromCivil y m d)
        else none
      else none
  | _ => none

/-- The composite the source applies to a stored calendar date: glue
slice(0,4), slice(4,6) and slice(6) with dashes and `Date.parse` the result.
For an 8-digit "YYYYMMDD" string this is `Date.parse` of "YYYY-MM-DD";
anything else fails to parse (NaN). -/
def parseYYYYMMDD (s : String) : Option Int :=
  match s.data with
  | [c1, c2, c3, c4, c5, c6, c7, c8] =>
      parseISODate (String.mk [c1, c2, c3, c4, '-', c5, c6, '-', c7, c8])
  | _ => none

/-- `new Date(dateString).getDay()`: weekday with 0 = Sunday, `none` when the
date is invalid (NaN propagates).  Day 0 (1970-01-01) was a Thursday.  The
source reads the weekday in the local timezone of a deployment at or east of
UTC, where the UTC-midnight instant still has the same calendar date. -/
def jsGetDay (s : String) : Option Nat :=
  (parseISODate s).map (fun days => ((days + 4) % 7).toNat)

/-- ISO weekday of a "YYYY-MM-DD" date: 1 = Monday ... 7 = Sunday. -/
def isoWeekday (s : String) : Option Nat :=
  (parseISODate s).map (fun days => ((days + 3) % 7).toNat + 1)

/-- JS `<` on two possibly-NaN numbers: false whenever a side is NaN. -/
def jsLtO : Option Int → Option Int → Bool
  | some a, some b => a < b
  | _, _ => false

/-- `dateString.replaceAll("-", "")`. -/
def removeAllDashes (s : String) : String :=
  String.mk (s.data.filter (fun c => !(c == '-')))

/-! ### The Calendar Resolver (`getActiveServicesOnDate`) -/

/-- One row of calendar.txt as csv-parse delivers it: an array of raw
strings.  Columns: 0 service_id, 1-7 the Monday..Sunday flags, 8 start_date,
9 end_date. -/
structure CalendarRow where
  service_id : String
  monday : String
  tuesday : String
  wednesday : String
  thursday : String
  friday : String
  saturday : String
  sunday : String
  start_date : String
  end_date : String
  deriving DecidableEq, Repr

/-- Positional access `data[i]` into a calendar row; an out-of-range or NaN
index reads `undefined`. -/
def CalendarRow.col (r : CalendarRow) : Option Nat → JSVal
  | some 0 => .str r.service_id
  | some 1 => .str r.monday
  | some 2 => .str r.tuesday
  | some 3 => .str r.wednesday
  | some 4 => .str r.thursday
  | some 5 => .str r.friday
  | some 6 => .str r.saturday
  | some 7 => .str r.sunday
  | some 8 => .str r.start_date
  | some 9 => .str r.end_date
  | _ => .undefined

/-- One row of calendar_dates.txt: 0 service_id, 1 date, 2 exception_type,
all raw CSV strings. -/
structure CalendarDateRow where
  service_id : String
  date : String
  exception : String
  deriving DecidableEq, Repr

/-- The record the map step of the resolver builds from a kept calendar
row. -/
structure CalRec where
  service_id : String
  start_date : String
  end_date : String
  deriving DecidableEq, Repr

/-- The map-then-filter over calendar.txt of the source.  The map drops a row
(returns `null`) when `data[day] === 0`; since `data[day]` is a raw CSV
STRING (or `undefined`), the strict comparison with the NUMBER 0 is always
false.  The filter drops the `null` entries and the rows whose date interval
does not contain the target date (NaN comparisons are false).  The
map-filter pair is rendered as one `filterMap`. -/
def calendarBaseServices (calendar : List CalendarRow) (dateString : String)
    (day : Option Nat) : List CalRec :=
  (calendar.map (fun data =>
    if jsStrictEq (data.col day) (.num 0) then none
    else some (CalRec.mk data.service_id data.start_date data.end_date))).filterMap
    (fun o =>
      match o with
      | none => none
      | some data =>
          let parsedStartDate := parseYYYYMMDD data.start_date
          let parsedEndDate := parseYYYYMMDD data.end_date
          let parsedDate := parseISODate dateString
          if jsLtO parsedDate parsedStartDate || jsLtO parsedEndDate parsedDate
          then none
          else some data)

/-- `Array.prototype.findIndex`: index of the first match, or -1. -/
def jsFindIndex (l : List JSVal) (p : JSVal → Bool) : Int :=
  match l.findIdx? p with
  | some i => (i : Int)
  | none => -1

/-- `services.splice(start, 1)`: remove one element at `start`; a negative
`start` counts from the end, so `splice(-1, 1)` removes the last element. -/
def jsSpliceRemoveOne (l : List JSVal) (start : Int) : List JSVal :=
  let len : Int := l.length
  let actual : Nat := (if start < 0 then max (len + start) 0 else min start len).toNat
  l.take actual ++ l.drop (actual + 1)

/-- The exception loop of the source.  It is written
`for (const calendarDateException in calendarDateExceptions)`: `for..in`
iterates the KEYS of the array, which are the index strings "0", "1", ...,
not the exception records.  Reading `.exception` or `.service_id` on such a
string yields `undefined`, and `undefined === 2` and `undefined === 1` are
both false, so neither branch ever runs and the loop leaves `services`
unchanged.  Both branch bodies are nevertheless translated in full. -/
def applyCalendarDateExceptions (services : List JSVal)
    (exceptions : List CalendarDateRow) : List JSVal :=
  (List.range exceptions.length).foldl
    (fun svcs i =>
      let _key : JSVal := .str (toString i)
      let exceptionProp : JSVal := .undefined
      let serviceIdProp : JSVal := .undefined
      if jsStrictEq exceptionProp (.num 2) then
        let spliceAt := jsFindIndex svcs (fun service => jsLooseEq service serviceIdProp)
        jsSpliceRemoveOne svcs spliceAt
      else if jsStrictEq exceptionProp (.num 1) then
        svcs ++ [serviceIdProp]
      else svcs)
    services

/-- The Calendar Resolver of the source (`getActiveServicesOnDate`): weekday
from the date (`getDay`, Sunday remapped from 0 to 7), base services from
calendar.txt, then the exceptions of calendar_dates.txt whose date equals the
dash-stripped target date are applied by the (inert) `for..in` loop. -/
def getActiveServicesOnDate (calendar : List CalendarRow)
    (calendarDates : List CalendarDateRow) (dateString : String) : List JSVal :=
  let day0 := jsGetDay dateString
  let day := if day0 = some 0 then some 7 else day0
  let base := calendarBaseServices calendar dateString day
  let services := base.map (fun data => JSVal.str data.service_id)
  let calendarDateExceptions :=
    calendarDates.filter (fun data => data.date == removeAllDashes dateString)
  applyCalendarDateExceptions services calendarDateExceptions

/-! ### The Calendar Resolver as the spec states it, for comparison -/

/-- Weekday flag of a calendar record for an ISO weekday (1 = Monday ... 7 =
Sunday); the flag is set when the CSV field is "1". -/
def specWeekdayFlagSet (r : CalendarRow) : Option Nat → Bool
  | some 1 => r.monday == "1"
  | some 2 => r.tuesday == "1"
  | some 3 => r.wednesday == "1"
  | some 4 => r.thursday == "1"
  | some 5 => r.friday == "1"
  | some 6 => r.saturday == "1"
  | some 7 => r.sunday == "1"
  | _ => false

/-- Membership of the target date in the closed interval
[start_date, end_date], dates compared as calendar values. -/
def specInInterval (r : CalendarRow) (dateString : String) : Bool :=
  match parseISODate dateString, parseYYYYMMDD r.start_date, parseYYYYMMDD r.end_date with
  | some d, some s, some e => decide (s ≤ d) && decide (d ≤ e)
  | _, _, _ => false

/-- The base active set as the spec describes it: a service is included iff
its weekday flag for the ISO weekday of the target date is set AND the date
lies within the closed [start_date, end_date] interval. -/
def specBaseActiveServices (calendar : List CalendarRow) (dateString : String) :
    List String :=
  (calendar.filter (fun r =>
    specWeekdayFlagSet r (isoWeekday dateString) && specInInterval r dateString)).map
    CalendarRow.service_id

/-- The active-service set as the spec describes it: the base set, then each
exception whose date equals the target date applied; a "2" exception removes
the service if present, a "1" exception adds it if absent. -/
def specActiveServices (calendar : List CalendarRow)
    (calendarDates : List CalendarDateRow) (dateString : String) : List String :=
  let base := specBaseActiveServices calendar dateString
  (calendarDates.filter (fun e => e.date == removeAllDashes dateString)).foldl
    (fun acc e =>
      if e.exception == "2" then acc.filter (fun s => !(s == e.service_id))
      else if e.exception == "1" then
        (if acc.contains e.service_id then acc else acc ++ [e.service_id])
      else acc)
    base

/-- A calendar-row read is a raw CSV string (or `undefined`), never a
number, so the weekday test `data[day] === 0` of the source is false for
every row and every index. -/
theorem col_never_num (r : CalendarRow) (day : Option Nat) (k : Int) :
    jsStrictEq (r.col day) (.num k) = false := by
  rcases day with - | n
  · rfl
  · rcases n with - | - | - | - | - | - | - | - | - | - | n <;> rfl

/-- The base-service computation of the source gives the same result for
every weekday index: the weekday check never removes a row. -/
theorem calendarBase_ignores_weekday (calendar : List CalendarRow)
    (dateString : String) (day1 day2 : Option Nat) :
    calendarBaseServices calendar dateString day1
      = calendarBaseServices calendar dateString day2 := by
  unfold calendarBaseServices
  simp [col_never_num]

/-- The exception loop of the source never changes the service list: the
`for..in` iteration sees only index-key strings, whose `.exception` property
is `undefined`. -/
theorem applyCalendarDateExceptions_inert (services : List JSVal)
    (exceptions : List CalendarDateRow) :
    applyCalendarDateExceptions services exceptions = services := by
  unfold applyCalendarDateExceptions
  generalize List.range exceptions.length = l
  induction l generalizing services with
  | nil => rfl
  | cons x xs ih =>
      rw [List.foldl_cons]
      exact ih services

/-- A calendar record active on 2023-08-14 by interval but with every weekday
flag 0, used to exhibit the weekday-check defect. -/
def c1CalendarRow : CalendarRow :=
  ⟨"S1", "0", "0", "0", "0", "0", "0", "0", "20230801", "20230831"⟩

/-- A calendar record active every weekday through August 2023. -/
def c2CalendarRow : CalendarRow :=
  ⟨"S1", "1", "1", "1", "1", "1", "1", "1", "20230801", "20230831"⟩

/-- A removal exception (exception_type 2) for service S1 on 2023-08-14. -/
def c2RemovalException : CalendarDateRow := ⟨"S1", "20230814", "2"⟩

/-- Claim C1: the claim says a service is in the base active set iff its
weekday flag for the ISO weekday of the target date is set AND the date lies
in [start_date, end_date].  The code violates the weekday conjunct: its test
compares the raw CSV string flag against the number 0 with `===`, which is
always false, so only the interval is checked.  On 2023-08-14 (ISO weekday 1,
Monday) a record whose Monday flag is "0" but whose interval contains the
date is returned active by the code, while the set of the claim is empty;
moreover the computed base set does not depend on the weekday index at
all. -/
theorem C1_weekday_flag_ignored :
    getActiveServicesOnDate [c1CalendarRow] [] "2023-08-14" = [.str "S1"]
      ∧ c1CalendarRow.monday = "0"
      ∧ isoWeekday "2023-08-14" = some 1
      ∧ specBaseActiveServices [c1CalendarRow] "2023-08-14" = []
      ∧ (∀ (calendar : List CalendarRow) (dateString : String) (day1 day2 : Option Nat),
          calendarBaseServices calendar dateString day1
            = calendarBaseServices calendar dateString day2) :=
  ⟨by decide, rfl, by decide, by decide, calendarBase_ignores_weekday⟩

/-- Claim C2: the claim says a 'removed' exception for the target date makes
the service absent and an 'added' one makes it present.  The code applies no
exception at all: the `for..in` loop iterates array index keys, so on
2023-08-14 a service with a removal exception of that exact date is still
returned active, while the claim requires it absent; the loop is inert for
every input. -/
theorem C2_exceptions_never_applied :
    getActiveServicesOnDate [c2CalendarRow] [c2RemovalException] "2023-08-14"
        = [.str "S1"]
      ∧ c2RemovalException.exception = "2"
      ∧ c2RemovalException.date = removeAllDashes "2023-08-14"
      ∧ specActiveServices [c2CalendarRow] [c2RemovalException] "2023-08-14" = []
      ∧ (∀ (services : List JSVal) (exceptions : List CalendarDateRow),
          applyCalendarDateExceptions services exceptions = services) :=
  ⟨by decide, rfl, by decide, by decide, applyCalendarDateExceptions_inert⟩

/-! ### The time filter (`filterDataByTime`) -/

/-- JS unary plus applied to a one-character slice `s[i]`: a digit gives its
value, whitespace gives 0, any other character (such as ":") gives NaN; an
out-of-range index gives `undefined`, which also coerces to NaN. -/
def charToNumber : Option Char → Option Int
  | some c =>
      if c.isDigit then some ((c.toNat : Int) - 48)
      else if c.isWhitespace then some 0
      else none
  | none => none

/-- String indexing `timeString[i]`. -/
def strCharAt (s : String) (i : Nat) : Option Char := s.data.get? i

/-- NaN-propagating addition. -/
def nanAdd : Option Int → Option Int → Option Int
  | some a, some b => some (a + b)
  | _, _ => none

/-- NaN-propagating multiplication by a constant. -/
def nanMul (a : Option Int) (k : Int) : Option Int := a.map (fun n => n * k)

/-- JS `>=` on possibly-NaN numbers: false whenever a side is NaN. -/
def jsGeO : Option Int → Option Int → Bool
  | some a, some b => decide (b ≤ a)
  | _, _ => false

/-- The helper `HHmmToMinuteCount` of the source:
`+s[0]*600 + +s[1]*60 + +s[3]*10 + +s[4]`, left associated. -/
def HHmmToMinuteCount (timeString : String) : Option Int :=
  nanAdd
    (nanAdd
      (nanAdd (nanMul (charToNumber (strCharAt timeString 0)) 600)
        (nanMul (charToNumber (strCharAt timeString 1)) 60))
      (nanMul (charToNumber (strCharAt timeString 3)) 10))
    (charToNumber (strCharAt timeString 4))

/-- Arrival minutes of a row: `HHmmToMinuteCount(data.arrival_time)`.  A
numeric arrival_time indexes to `undefined` and yields NaN; an absent
arrival_time would make the source throw on indexing, which no pipeline row
and no claim reaches — the model maps it to NaN as well. -/
def rowArrivalMinutes (data : Row) : Option Int :=
  match data.get "arrival_time" with
  | .str s => HHmmToMinuteCount s
  | _ => none

/-- The time filter of the source (`filterDataByTime`): keep a row iff its
arrival minutes are `>=` the target minutes and `<` target + window. -/
def filterDataByTime (data : List Row) (timeString : String)
    (timeLength : Int) : List Row :=
  let minTime := HHmmToMinuteCount timeString
  let maxTime := nanAdd minTime (some timeLength)
  data.filter (fun d =>
    let minuteArrivalTime := rowArrivalMinutes d
    jsGeO minuteArrivalTime minTime && jsLtO minuteArrivalTime maxTime)

/-- The string is a well-formed "HH:mm" whose hour reads h and minute reads
m. -/
def IsHHmm (s : String) (h m : Int) : Prop :=
  ∃ c1 c2 c4 c5 : Char,
    s.data = [c1, c2, ':', c4, c5]
    ∧ c1.isDigit = true ∧ c2.isDigit = true
    ∧ c4.isDigit = true ∧ c5.isDigit = true
    ∧ h = 10 * ((c1.toNat : Int) - 48) + ((c2.toNat : Int) - 48)
    ∧ m = 10 * ((c4.toNat : Int) - 48) + ((c5.toNat : Int) - 48)

theorem HHmm_eval (s : String) (h m : Int) (hs : IsHHmm s h m) :
    HHmmToMinuteCount s = some (60 * h + m) := by
  obtain ⟨c1, c2, c4, c5, hdata, h1, h2, h4, h5, hh, hm⟩ := hs
  subst hh hm
  simp only [HHmmToMinuteCount, strCharAt, hdata, List.get?, charToNumber,
    h1, h2, h4, h5, if_true, nanAdd, nanMul, Option.map_some']
  congr 1
  ring

/-- Claim C4: for rows whose arrival_time is a well-formed HH:mm string, a
well-formed HH:mm target and a window w, the time filter keeps a row iff its
arrival minutes (hours*60 + minutes) lie in the half-open window
[target_minutes, target_minutes + w). -/
theorem C4_time_window_halfopen (data : List Row) (timeString : String)
    (w : Int) (th tm : Int) (hT : IsHHmm timeString th tm) (r : Row)
    (hr : r ∈ data) (s : String) (hs : r.get "arrival_time" = .str s)
    (ah am : Int) (hA : IsHHmm s ah am) :
    r ∈ filterDataByTime data timeString w
      ↔ (60 * th + tm ≤ 60 * ah + am ∧ 60 * ah + am < (60 * th + tm) + w) := by
  have harr : rowArrivalMinutes r = some (60 * ah + am) := by
    unfold rowArrivalMinutes
    rw [hs]
    exact HHmm_eval s ah am hA
  have htgt : HHmmToMinuteCount timeString = some (60 * th + tm) :=
    HHmm_eval timeString th tm hT
  unfold filterDataByTime
  rw [List.mem_filter]
  simp [harr, htgt, nanAdd, jsGeO, jsLtO, hr]

/-- A row arriving 08:09. -/
def c4Row0809 : Row := [("arrival_time", .str "08:09")]

/-- A row arriving 08:10. -/
def c4Row0810 : Row := [("arrival_time", .str "08:10")]

/-- A row arriving 07:59. -/
def c4Row0759 : Row := [("arrival_time", .str "07:59")]

/-- The three rows of the half-open-window example. -/
def c4Rows : List Row := [c4Row0809, c4Row0810, c4Row0759]

theorem C4_witness :
    c4Row0809 ∈ filterDataByTime c4Rows "08:00" 10
      ∧ ¬ c4Row0810 ∈ filterDataByTime c4Rows "08:00" 10
      ∧ ¬ c4Row0759 ∈ filterDataByTime c4Rows "08:00" 10 := by
  have hT : IsHHmm "08:00" 8 0 :=
    ⟨'0', '8', '0', '0', rfl, rfl, rfl, rfl, rfl, by decide, by decide⟩
  have h809 := C4_time_window_halfopen c4Rows "08:00" 10 8 0 hT c4Row0809
    (by decide) "08:09" (by decide) 8 9
    ⟨'0', '8', '0', '9', rfl, rfl, rfl, rfl, rfl, by decide, by decide⟩
  have h810 := C4_time_window_halfopen c4Rows "08:00" 10 8 0 hT c4Row0810
    (by decide) "08:10" (by decide) 8 10
    ⟨'0', '8', '1', '0', rfl, rfl, rfl, rfl, rfl, by decide, by decide⟩
  have h759 := C4_time_window_halfopen c4Rows "08:00" 10 8 0 hT c4Row0759
    (by decide) "07:59" (by decide) 7 59
    ⟨'0', '7', '5', '9', rfl, rfl, rfl, rfl, rfl, by decide, by decide⟩
  refine ⟨h809.mpr (by decide), ?_, ?_⟩
  · exact fun hm => absurd (h810.mp hm) (by decide)
  · exact fun hm => absurd (h759.mp hm) (by decide)

/-! ### Claims about the join engine -/

/-- Two left rows sharing one key value. -/
def c5Left : List Row := [[("k", .str "1")], [("k", .str "1")]]

/-- A single right row matching that key and carrying the field v. -/
def c5Right : List Row := [[("k", .str "1"), ("v", .str "X")]]

/-- Claim C5 as stated is false at this input: an inner join of two left
rows with the same key against one right row yields two result rows, which
exceeds min(|left|, |right|) = 1 — the engine does not deduplicate right
matches. -/
theorem C5_counterexample :
    ¬ ((joinObjectsOnField .inner "k" c5Left c5Right ["v"]).length
        ≤ min c5Left.length c5Right.length) := by decide

/-- Claim C5 (amended): the inner join result has size at most |left| (the
min(|left|, |right|) bound fails because several left rows may match one
right row), and every result row originates from a left row merged with the
FIRST right row whose key matches it, each carried field that is present on
that right row keeping that right row's value. -/
theorem C5_inner_join_amended (onField : String) (left right : List Row)
    (fields : List String) :
    (joinObjectsOnField .inner onField left right fields).length ≤ left.length
      ∧ ∀ row ∈ joinObjectsOnField .inner onField left right fields,
          ∃ l ∈ left, ∃ r, right.find? (keyMatches onField l) = some r
            ∧ row = Row.merge l (carryFields r fields)
            ∧ ∀ f, fields.contains f = true → r.hasOwn f = true →
                row.get f = r.get f := by
  constructor
  · exact List.length_filterMap_le _ _
  · intro row hrow
    obtain ⟨l, hl, hjoin⟩ := List.mem_filterMap.mp hrow
    cases hfind : right.find? (keyMatches onField l) with
    | none =>
        simp only [joinRow, hfind] at hjoin
        cases hjoin
    | some r =>
        simp only [joinRow, hfind] at hjoin
        have heq := Option.some.inj hjoin
        refine ⟨l, hl, r, hfind, heq.symm, ?_⟩
        intro f hf hr
        rw [← heq,
          get_merge_of_keysNodup (carryFields r fields) l f
            (carryFields_keysNodup r fields),
          carryFields_hasOwn, hf, hr]
        have hf2 : f ∈ fields := by simpa using hf
        simp [carryFields_get, hf, hf2, hr]

/-- Claim C6: the left join maps each left row to exactly one output row, in
left input order; an unmatched left row is returned unchanged (no carry
field added); and the inner join is the same mapping restricted to the
matched left rows, keeping left order. -/
theorem C6_left_join_complete (onField : String) (left right : List Row)
    (fields : List String) :
    joinObjectsOnField .left onField left right fields
        = left.map (leftJoinRow onField right fields)
      ∧ (joinObjectsOnField .left onField left right fields).length = left.length
      ∧ (∀ l : Row, right.find? (keyMatches onField l) = none →
          leftJoinRow onField right fields l = l)
      ∧ joinObjectsOnField .inner onField left right fields
          = (left.filter
              (fun l => (right.find? (keyMatches onField l)).isSome)).map
              (leftJoinRow onField right fields) := by
  refine ⟨join_left_eq_map onField left right fields, ?_, ?_, ?_⟩
  · rw [join_left_eq_map onField left right fields, List.length_map]
  · intro l h
    simp [leftJoinRow, h]
  · show left.filterMap _ = _
    induction left with
    | nil => rfl
    | cons x xs ih =>
        rw [List.filterMap_cons]
        cases hfind : right.find? (keyMatches onField x) with
        | none => simp [joinRow, hfind, List.filter_cons, ih]
        | some r => simp [joinRow, hfind, List.filter_cons, leftJoinRow, ih]

/-- Left rows for the C6 witness: one matched, one unmatched. -/
def c6Left : List Row := [[("k", .str "1")], [("k", .str "2")]]

/-- Right rows for the C6 witness. -/
def c6Right : List Row := [[("k", .str "1"), ("v", .str "X")]]

theorem C6_witness :
    joinObjectsOnField .left "k" c6Left c6Right ["v"]
        = c6Left.map (leftJoinRow "k" c6Right ["v"])
      ∧ leftJoinRow "k" c6Right ["v"] [("k", .str "2")] = [("k", .str "2")] := by
  have h := C6_left_join_complete "k" c6Left c6Right ["v"]
  exact ⟨h.1, h.2.2.1 [("k", .str "2")] (by decide)⟩

/-- A concrete instantiation of the amended C5 statement. -/
theorem C5_amended_witness :
    (joinObjectsOnField .inner "k" c5Left c5Right ["v"]).length ≤ c5Left.length
      ∧ ∃ l ∈ c5Left, ∃ r, c5Right.find? (keyMatches "k" l) = some r
          ∧ [("v", JSVal.str "X"), ("k", JSVal.str "1")] = Row.merge l (carryFields r ["v"])
          ∧ ∀ f, ["v"].contains f = true → r.hasOwn f = true →
              Row.get [("v", JSVal.str "X"), ("k", JSVal.str "1")] f = r.get f := by
  have h := C5_inner_join_amended "k" c5Left c5Right ["v"]
  exact ⟨h.1, h.2 [("v", JSVal.str "X"), ("k", JSVal.str "1")] (by decide)⟩

/-! ### The live merge layer -/

/-- The runtime exception the embedding tracks: the TypeError raised by
reading a property of null or undefined. -/
inductive JSError where
  | typeError
  deriving DecidableEq, Repr

/-- One stop-time update of a live trip-update entity; `arrival` and
`departure` hold the predicted `time` when the corresponding object is
present. -/
structure StopTimeUpdate where
  stopId : String
  arrival : Option Int
  departure : Option Int
  deriving DecidableEq, Repr

/-- One trip-update entity; the nested `tripUpdate.trip.tripId` and
`tripUpdate.stopTimeUpdate` paths are flattened to fields. -/
structure TripUpdateEntity where
  tripId : String
  stopTimeUpdate : List StopTimeUpdate
  deriving DecidableEq, Repr

/-- The trip-updates feed: a JSON object with an `entity` array. -/
structure TripFeed where
  entity : List TripUpdateEntity
  deriving DecidableEq, Repr

/-- One vehicle-position entity; `vehicle.trip.tripId` and
`vehicle.position` flattened, the position itself carried opaquely. -/
structure VehicleEntity where
  tripId : String
  position : JSVal
  deriving DecidableEq, Repr

/-- The vehicle-positions feed. -/
structure VehicleFeed where
  entity : List VehicleEntity
  deriving DecidableEq, Repr

/-- `liveTripsData["entity"].find(item2 => item2.tripUpdate.trip.tripId ===
item.trip_id)`. -/
def findLiveTrip (feed : TripFeed) (item : Row) : Option TripUpdateEntity :=
  feed.entity.find? (fun e => jsStrictEq (.str e.tripId) (item.get "trip_id"))

/-- The `joinedStopUpdate` of the source: the stop-time update of the found
trip matching the row's stop_id, or null when no trip was found. -/
def findStopUpdate (joinedLiveTrip : Option TripUpdateEntity) (item : Row) :
    Option StopTimeUpdate :=
  match joinedLiveTrip with
  | some t =>
      t.stopTimeUpdate.find? (fun s => jsStrictEq (.str s.stopId) (item.get "stop_id"))
  | none => none

/-- The `unixTime` of the source: `joinedStopUpdate ? (arrival ?
arrival.time : departure.time) : null`.  When both arrival and departure are
absent, reading `.time` of `undefined` throws. -/
def stopUpdateUnixTime : Option StopTimeUpdate → Except JSError (Option Int)
  | none => .ok none
  | some s =>
      match s.arrival with
      | some t => .ok (some t)
      | none =>
          match s.departure with
          | some t => .ok (some t)
          | none => .error .typeError

/-- The `time` of the source: `unixTime ? unixTimeToHHmm(unixTime) :
"No Live Data"`.  Both `null` and the NUMBER 0 are falsy, so a zero
timestamp yields the sentinel.  `unixTimeToHHmm` calls
`toLocaleTimeString`, a locale- and timezone-dependent library routine, so
it enters the model as the parameter `conv`. -/
def liveTimeString (conv : Int → String) : Option Int → String
  | some t => if t = 0 then "No Live Data" else conv t
  | none => "No Live Data"

/-- The per-row body of the trip merge.  A null feed payload makes
`liveTripsData["entity"]` throw a TypeError. -/
def liveTripRow (liveTripsData : Option TripFeed) (conv : Int → String)
    (item : Row) : Except JSError Row :=
  match liveTripsData with
  | none => .error .typeError
  | some feed =>
      match stopUpdateUnixTime (findStopUpdate (findLiveTrip feed item) item) with
      | .error e => .error e
      | .ok unixTime =>
          .ok (item.set "live_arrival_time" (.str (liveTimeString conv unixTime)))

/-- The trip merge of the source (`joinLiveTripsToData`), mapping each row
through the per-row body; an exception aborts the whole map. -/
def joinLiveTripsToData (liveTripsData : Option TripFeed) (conv : Int → String)
    (data : List Row) : Except JSError (List Row) :=
  data.mapM (liveTripRow liveTripsData conv)

/-- The per-row body of the position merge. -/
def livePositionRow (livePositionsData : Option VehicleFeed) (item : Row) :
    Except JSError Row :=
  match livePositionsData with
  | none => .error .typeError
  | some feed =>
      let joinedLivePosition :=
        feed.entity.find? (fun e => jsStrictEq (.str e.tripId) (item.get "trip_id"))
      .ok (item.set "position"
        (match joinedLivePosition with
          | some e => e.position
          | none => .str "No Live Data"))

/-- The position merge of the source (`joinLivePositionToData`). -/
def joinLivePositionToData (livePositionsData : Option VehicleFeed)
    (data : List Row) : Except JSError (List Row) :=
  data.mapM (livePositionRow livePositionsData)

/-- A fixed stand-in for the locale-dependent time conversion. -/
def convStub : Int → String := fun _ => ""

/-- The graceful degradation the spec describes for an unavailable trip
feed: every row kept, in order, with the "No Live Data" sentinel attached. -/
def specLiveTripsMergeOnFeedFailure (data : List Row) : List Row :=
  data.map (fun item => item.set "live_arrival_time" (.str "No Live Data"))

/-- A schedule row for the live-merge claims. -/
def c3Row : Row := [("trip_id", .str "T1"), ("stop_id", .str "S1")]

/-- Claim C3: the claim says that with the feed payload null (failed fetch)
the trip merge returns every row with the sentinel attached and never raises.
The code instead throws a TypeError on the first row, reading "entity" of
null; only the spec-described behaviour produces the sentinel rows. -/
theorem C3_null_feed_crashes :
    joinLiveTripsToData none convStub [c3Row] = .error .typeError
      ∧ specLiveTripsMergeOnFeedFailure [c3Row]
          = [c3Row.set "live_arrival_time" (.str "No Live Data")] :=
  ⟨rfl, rfl⟩

/-- A row that already carries the live_arrival_time field. -/
def c9Row : Row := [("live_arrival_time", .str "X")]

/-- Claim C9 as stated is false at this input: a row that already carries
live_arrival_time has that field overwritten by the trip merge (value
changed, no new field added). -/
theorem C9_counterexample :
    joinLiveTripsToData (some ⟨[]⟩) convStub [c9Row]
        = .ok [[("live_arrival_time", .str "No Live Data")]]
      ∧ ¬ Row.get [("live_arrival_time", JSVal.str "No Live Data")]
            "live_arrival_time" = c9Row.get "live_arrival_time" := by
  constructor
  · rfl
  · decide

/-- Feed well-formedness guaranteed by the external interface: every
stop-time update carries an arrival or a departure predicted time. -/
def TripFeedWF (feed : TripFeed) : Prop :=
  ∀ e ∈ feed.entity, ∀ s ∈ e.stopTimeUpdate,
    s.arrival.isSome = true ∨ s.departure.isSome = true

theorem stopUpdateUnixTime_ok (tf : TripFeed) (hwf : TripFeedWF tf)
    (item : Row) :
    ∃ t, stopUpdateUnixTime (findStopUpdate (findLiveTrip tf item) item)
      = .ok t := by
  cases hft : findLiveTrip tf item with
  | none => exact ⟨none, by simp [findStopUpdate, hft, stopUpdateUnixTime]⟩
  | some e =>
      cases hfs : findStopUpdate (some e) item with
      | none => exact ⟨none, by simp [hfs, stopUpdateUnixTime]⟩
      | some s =>
          have he : e ∈ tf.entity := List.mem_of_find?_eq_some hft
          have hs : s ∈ e.stopTimeUpdate := by
            have := hfs
            unfold findStopUpdate at this
            exact List.mem_of_find?_eq_some this
          rcases hwf e he s hs with h | h
          · obtain ⟨t, ht⟩ := Option.isSome_iff_exists.mp h
            exact ⟨some t, by simp [hfs, stopUpdateUnixTime, ht]⟩
          · obtain ⟨t, ht⟩ := Option.isSome_iff_exists.mp h
            cases ha : s.arrival with
            | some u => exact ⟨some u, by simp [hfs, stopUpdateUnixTime, ha]⟩
            | none => exact ⟨some t, by simp [hfs, stopUpdateUnixTime, ha, ht]⟩

/-- The live time the trip merge attaches for a row, for feeds observing the
interface shape (the error branch is unreachable for those). -/
def tripLiveTime (tf : TripFeed) (conv : Int → String) (item : Row) : String :=
  match stopUpdateUnixTime (findStopUpdate (findLiveTrip tf item) item) with
  | .ok t => liveTimeString conv t
  | .error _ => "No Live Data"

/-- The position value the position merge attaches for a row. -/
def vehiclePosValue (vf : VehicleFeed) (item : Row) : JSVal :=
  match vf.entity.find? (fun e => jsStrictEq (.str e.tripId) (item.get "trip_id")) with
  | some e => e.position
  | none => .str "No Live Data"

theorem liveTripRow_eq (tf : TripFeed) (hwf : TripFeedWF tf)
    (conv : Int → String) (item : Row) :
    liveTripRow (some tf) conv item
      = .ok (item.set "live_arrival_time" (.str (tripLiveTime tf conv item))) := by
  obtain ⟨t, ht⟩ := stopUpdateUnixTime_ok tf hwf item
  have h2 : tripLiveTime tf conv item = liveTimeString conv t := by
    unfold tripLiveTime
    rw [ht]
  rw [h2]
  simp only [liveTripRow]
  rw [ht]

theorem livePositionRow_eq (vf : VehicleFeed) (item : Row) :
    livePositionRow (some vf) item
      = .ok (item.set "position" (vehiclePosValue vf item)) := rfl

theorem mapM_ok {α β γ : Type} (f : α → Except γ β) (g : α → β) (l : List α)
    (h : ∀ x ∈ l, f x = .ok (g x)) : l.mapM f = .ok (l.map g) := by
  induction l with
  | nil => rfl
  | cons x xs ih =>
      rw [List.mapM_cons, h x (by simp), ih (fun y hy => h y (by simp [hy]))]
      rfl

/-- Claim C9 (amended): for an actual feed payload of the interface shape,
each merge returns one output row per input row, in input order; each output
row is its input row with exactly the one attached field set, so it agrees
with the input on every other field, has the attached field defined, and
gains a new field exactly when the input row lacked the attached field.  (As
stated the claim fails for input rows already carrying the attached field,
whose value is overwritten — see the counterexample.) -/
theorem C9_frame_amended (tf : TripFeed) (hwf : TripFeedWF tf)
    (vf : VehicleFeed) (conv : Int → String) (data : List Row) :
    joinLiveTripsToData (some tf) conv data
        = .ok (data.map (fun item =>
            item.set "live_arrival_time" (.str (tripLiveTime tf conv item))))
      ∧ joinLivePositionToData (some vf) data
          = .ok (data.map (fun item => item.set "position" (vehiclePosValue vf item)))
      ∧ (∀ (item : Row) (key : String) (v : JSVal),
          (∀ f, f ≠ key → (item.set key v).get f = item.get f)
          ∧ (item.set key v).hasOwn key = true
          ∧ ∀ f, (item.set key v).hasOwn f = (item.hasOwn f || f == key)) := by
  refine ⟨?_, ?_, ?_⟩
  · exact mapM_ok _ _ data (fun x _ => liveTripRow_eq tf hwf conv x)
  · exact mapM_ok _ _ data (fun x _ => livePositionRow_eq vf x)
  · intro item key v
    refine ⟨?_, ?_, ?_⟩
    · intro f hf
      rw [Row.get_set]
      have hkf : ¬ key = f := fun he => hf he.symm
      have hb : (key == f) = false := by simp [hkf]
      simp [hb]
    · rw [Row.hasOwn_set]
      simp
    · intro f
      rw [Row.hasOwn_set]
      by_cases h : key = f
      · subst h; simp
      · have hfk : ¬ f = key := fun he => h he.symm
        have h1 : (key == f) = false := by simp [h]
        have h2 : (f == key) = false := by simp [hfk]
        simp [h1, h2]

/-- A singleton well-formed trip feed for the C9 and C10 witnesses. -/
def cWitnessFeed : TripFeed := ⟨[⟨"T1", [⟨"S1", some 0, none⟩]⟩]⟩

/-- A vehicle feed for the C9 witness. -/
def cWitnessVehicleFeed : VehicleFeed := ⟨[⟨"T1", .str "POS"⟩]⟩

theorem C9_amended_witness :
    joinLiveTripsToData (some cWitnessFeed) convStub [c3Row]
        = .ok [c3Row.set "live_arrival_time"
            (.str (tripLiveTime cWitnessFeed convStub c3Row))]
      ∧ joinLivePositionToData (some cWitnessVehicleFeed) [c3Row]
          = .ok [c3Row.set "position" (vehiclePosValue cWitnessVehicleFeed c3Row)]
      ∧ (c3Row.set "live_arrival_time" (.str "No Live Data")).hasOwn
          "live_arrival_time" = true := by
  have h := C9_frame_amended cWitnessFeed
    (by intro e he s hs; fin_cases he; fin_cases hs; simp [cWitnessFeed])
    cWitnessVehicleFeed convStub [c3Row]
  exact ⟨h.1, h.2.1, (h.2.2 c3Row "live_arrival_time" (.str "No Live Data")).2.1⟩

/-- Claim C10: when the matching stop-time update of a row carries the
effective predicted timestamp 0 (the Unix epoch), the trip merge attaches the
"No Live Data" sentinel rather than a converted wall-clock string: the code
tests the timestamp for truthiness and 0 is falsy, like an absent one. -/
theorem C10_zero_timestamp_sentinel (tf : TripFeed) (conv : Int → String)
    (item : Row)
    (hz : stopUpdateUnixTime (findStopUpdate (findLiveTrip tf item) item)
      = .ok (some 0)) :
    liveTripRow (some tf) conv item
        = .ok (item.set "live_arrival_time" (.str "No Live Data"))
      ∧ joinLiveTripsToData (some tf) conv [item]
          = .ok [item.set "live_arrival_time" (.str "No Live Data")] := by
  have h : liveTripRow (some tf) conv item
      = .ok (item.set "live_arrival_time" (.str "No Live Data")) := by
    simp only [liveTripRow]
    rw [hz]
    simp [liveTimeString]
  refine ⟨h, ?_⟩
  show List.mapM _ _ = _
  rw [List.mapM_cons, h]
  rfl

theorem C10_witness :
    liveTripRow (some cWitnessFeed) convStub c3Row
        = .ok (c3Row.set "live_arrival_time" (.str "No Live Data"))
      ∧ joinLiveTripsToData (some cWitnessFeed) convStub [c3Row]
          = .ok [c3Row.set "live_arrival_time" (.str "No Live Data")] :=
  C10_zero_timestamp_sentinel cWitnessFeed convStub c3Row rfl

/-! ### The live feed cache (`getOnlineCachableData`)

The file system enters the model as the state of the one cache file the call
touches; `Date.now()` as the parameter `now`; the network
(`parseOnlineDataToJSON`, which resolves to the parsed body on success and to
null on a non-success status) as the parameter `fetchResult`. -/

/-- State of the persisted cache file for one feed name. -/
inductive CacheFile (π : Type) where
  | absent
  | corrupt
  | entry (cached_time : Int) (payload : π)
  deriving DecidableEq, Repr

/-- Outcome of one cache access: the value returned, the file state after
the call, and whether the network was consulted. -/
structure CacheResult (π : Type) where
  ret : Option π
  file : CacheFile π
  fetched : Bool
  deriving DecidableEq, Repr

/-- `readJSONCache`: read and JSON.parse the file, returning null on any
failure — the try/catch is inside the source helper. -/
def readJSONCache {π : Type} : CacheFile π → Option (Int × π)
  | .entry t p => some (t, p)
  | _ => none

/-- `cacheJSONData`: stamp `data["cached_time"] = Date.now()` and write the
file.  On a null payload the property assignment throws before the write;
the catch logs it and the file is left unchanged. -/
def cacheJSONData {π : Type} (now : Int) (data : Option π) (file : CacheFile π) :
    CacheFile π :=
  match data with
  | some p => .entry now p
  | none => file

/-- The cache layer of the source (`getOnlineCachableData`): if the file
exists, is readable and its entry is younger than 300000 ms, return it
without fetching; otherwise fetch, persist a successful result stamped with
now, and return the fetch result.  (The `existsSync` guard only short-cuts
the read of an absent file, which reads as null anyway.) -/
def getOnlineCachableData {π : Type} (file : CacheFile π) (now : Int)
    (fetchResult : Option π) : CacheResult π :=
  match readJSONCache file with
  | some (t, p) =>
      if now - t < 300000 then ⟨some p, file, false⟩
      else ⟨fetchResult, cacheJSONData now fetchResult file, true⟩
  | none => ⟨fetchResult, cacheJSONData now fetchResult file, true⟩

/-- Claim C7: a readable cache entry strictly younger than 5 minutes is
returned as is, without touching the network; otherwise (stale entry, or no
entry) the URL is fetched and a successful result overwrites the stored
entry, stamped with the current time, before being returned. -/
theorem C7_cache_ttl {π : Type} (now t : Int) (p q : π)
    (fetchResult : Option π) :
    (now - t < 300000 →
      getOnlineCachableData (.entry t p) now fetchResult
        = ⟨some p, .entry t p, false⟩)
    ∧ (¬ now - t < 300000 →
      getOnlineCachableData (.entry t p) now (some q)
        = ⟨some q, .entry now q, true⟩)
    ∧ getOnlineCachableData .absent now (some q) = ⟨some q, .entry now q, true⟩ := by
  refine ⟨fun h => ?_, fun h => ?_, rfl⟩
  · simp [getOnlineCachableData, readJSONCache, h]
  · simp [getOnlineCachableData, readJSONCache, h, cacheJSONData]

theorem C7_witness :
    getOnlineCachableData (CacheFile.entry 0 "P") 100 (some "Q")
        = ⟨some "P", .entry 0 "P", false⟩
      ∧ getOnlineCachableData (CacheFile.entry 0 "P") 300000 (some "Q")
          = ⟨some "Q", .entry 300000 "Q", true⟩
      ∧ getOnlineCachableData (CacheFile.absent) 7 (some "Q")
          = ⟨some "Q", .entry 7 "Q", true⟩ :=
  ⟨(C7_cache_ttl 100 0 "P" "Q" (some "Q")).1 (by decide),
    (C7_cache_ttl 300000 0 "P" "Q" (some "Q")).2.1 (by decide),
    (C7_cache_ttl 7 0 "P" "Q" (some "Q")).2.2⟩

/-- Claim C8: an unreadable or unparseable stored entry behaves exactly like
an absent one — a cache miss followed by a fresh fetch whose result is
returned — and the cache layer returns normally (the parse failure is caught
inside `readJSONCache`, modelled by its total null-on-corruption reading). -/
theorem C8_corrupt_is_miss {π : Type} (now : Int) (fetchResult : Option π) :
    (getOnlineCachableData (.corrupt : CacheFile π) now fetchResult).fetched = true
      ∧ (getOnlineCachableData (.corrupt : CacheFile π) now fetchResult).ret
          = fetchResult
      ∧ ∀ q : π, getOnlineCachableData (.corrupt) now (some q)
          = getOnlineCachableData (.absent) now (some q) :=
  ⟨rfl, rfl, fun _ => rfl⟩

end Translink
